import Mathlib

/-!
# PylonSample_FocusHelper: the focus measurement pipeline

A shallow embedding of `src/PylonSample_FocusHelper.cpp`: the function
`GetFocusLevel` (lines 31-64) and the acquisition loop of `main` (lines 66-144),
together with the properties of the specification that concern them.

Conventions.
* Real quantities (`double` in the source) are rationals. Comparison and
  assignment of doubles are exact operations, so the acquisition loop is
  modelled without loss. Inside the scorer the square root of `meanStdDev` is a
  parameter `sqrt`, while the quotients of `meanStdDev` and the product of
  line 55 are taken exactly, without the rounding of double arithmetic; the
  theorems on the loop take the focus level of a frame as a given value.
* Library routines of pylon and OpenCV that the source calls but does not
  contain are modelled from their description in the specification; each such
  definition says so in its doc comment.
* Display calls (`Pylon::DisplayImage`), buffer release and the
  wait-for-Enter idiom have no effect on any computed value and are omitted.
-/

namespace FocusHelper

/-! ## Images -/

/-- Number of images to be grabbed (source line 29). -/
def c_countOfImagesToGrab : Nat := 10000

/-- A pylon image in the `Mono8` pixel format (the format the source selects
on line 87): its width, its height and the 8-bit sample at column `x`, row `y`. -/
structure CPylonImage where
  width : Nat
  height : Nat
  pixel : Nat → Nat → Fin 256

/-- The exceptions derived from `GenICam::GenericException` that the modelled
library calls raise: the timeout of `RetrieveResult` with
`TimeoutHandling_ThrowException`, and the rejection of a region by `GetAoi`. -/
inductive GenericException
  | TimeoutException
  | InvalidRegionError
  deriving DecidableEq, Repr

/-- The bounds invariant of a region of interest (specification, section 3):
`0 ≤ offsetX`, `0 ≤ offsetY`, `offsetX + width ≤ frame.width`,
`offsetY + height ≤ frame.height`. -/
def roiInBounds (img : CPylonImage) (offsetX offsetY roiWidth roiHeight : Int) : Prop :=
  0 ≤ offsetX ∧ 0 ≤ offsetY ∧
    offsetX + roiWidth ≤ (img.width : Int) ∧ offsetY + roiHeight ≤ (img.height : Int)

instance (img : CPylonImage) (offsetX offsetY roiWidth roiHeight : Int) :
    Decidable (roiInBounds img offsetX offsetY roiWidth roiHeight) := by
  unfold roiInBounds
  infer_instance

/-- The regions that the region extractor accepts: those of positive width
and height (section 4.3: a zero-sized region is a contract violation of the
Region Extractor) that satisfy the bounds invariant of section 3. -/
def roiValid (img : CPylonImage) (offsetX offsetY roiWidth roiHeight : Int) : Prop :=
  0 < roiWidth ∧ 0 < roiHeight ∧ roiInBounds img offsetX offsetY roiWidth roiHeight

instance (img : CPylonImage) (offsetX offsetY roiWidth roiHeight : Int) :
    Decidable (roiValid img offsetX offsetY roiWidth roiHeight) := by
  unfold roiValid
  infer_instance

/-- Modelled from the spec: `CPylonImage::GetAoi` is pylon library code, absent
from the source. Section 4.1: it returns exactly the pixels inside the region,
in the same encoding, and fails with `InvalidRegionError` when the region
violates the bounds invariant of section 3; nothing is clamped. Section 4.3: a
zero-sized region is a contract violation of the extractor, so it is rejected
as well, and so is a negative size (the library takes the size as an unsigned
number, as which a negative `int` of line 35 lies far beyond any frame). The
region descriptor is four integers, as in section 3 and in the `int`
parameters of `GetFocusLevel`; on an accepted region all four are
non-negative, so the conversions to natural numbers below are exact. -/
def CPylonImage.GetAoi (img : CPylonImage) (offsetX offsetY roiWidth roiHeight : Int) :
    Except GenericException CPylonImage :=
  if roiValid img offsetX offsetY roiWidth roiHeight then
    .ok ⟨roiWidth.toNat, roiHeight.toNat,
      fun x y => img.pixel (offsetX.toNat + x) (offsetY.toNat + y)⟩
  else
    .error .InvalidRegionError

/-- Modelled from the spec: `CImageFormatConverter::Convert` with output format
`Mono8` (lines 41-44) is pylon library code. Section 4.2: on a region that is
already single-channel 8-bit it is a value-preserving copy. -/
def Convert (roiImage : CPylonImage) : CPylonImage :=
  ⟨roiImage.width, roiImage.height, fun x y => roiImage.pixel x y⟩

/-! ## The OpenCV operations -/

/-- A single-channel OpenCV matrix: `data y x` is the sample at row `y`,
column `x`. -/
structure Mat where
  rows : Nat
  cols : Nat
  data : Nat → Nat → Nat

/-- The matrix header that line 46 places over the converted image's buffer:
`cv::Mat(height, width, CV_8UC1, buffer)`. -/
def matOfImage (convertedImage : CPylonImage) : Mat :=
  ⟨convertedImage.height, convertedImage.width, fun y x => (convertedImage.pixel x y).val⟩

/-- Modelled from the spec: border type 4 (reflect-101, `gfedcb|abcdefgh|gfedcba`),
the last argument of the `cv::Laplacian` call on line 50. An index inside
`0 .. len-1` is kept; a line of length 1 maps every index to 0; otherwise the
index is mirrored about the first or the last sample without repeating it
(one reflection, which is all the 3×3 aperture needs). -/
def borderInterpolate (p : Int) (len : Nat) : Nat :=
  if 0 ≤ p ∧ p < (len : Int) then p.toNat
  else if len = 1 then 0
  else if p < 0 then (-p).toNat
  else (2 * (len : Int) - 2 - p).toNat

/-- Saturation to the 8-bit range: `saturate_cast<uchar>`. -/
def saturate_cast (v : Int) : Nat :=
  if v < 0 then 0 else if 255 < v then 255 else v.toNat

/-- Modelled from the spec: `cv::Laplacian(src, dst, CV_8UC1, 1, 1, 0, 4)`
(line 50) is OpenCV library code. Section 4.3, step 1: the 4-connected kernel
of aperture size 1 (`0 1 0 / 1 -4 1 / 0 1 0`), scale 1, delta 0, reflect-101
border, the response saturated to 8 bits, same dimensions as the input. -/
def Laplacian (src : Mat) : Mat :=
  ⟨src.rows, src.cols, fun y x =>
    let up : Int := src.data (borderInterpolate ((y : Int) - 1) src.rows) x
    let down : Int := src.data (borderInterpolate ((y : Int) + 1) src.rows) x
    let left : Int := src.data y (borderInterpolate ((x : Int) - 1) src.cols)
    let right : Int := src.data y (borderInterpolate ((x : Int) + 1) src.cols)
    let centre : Int := src.data y x
    saturate_cast (up + down + left + right - 4 * centre)⟩

/-- All samples of a matrix, row by row. -/
def Mat.samples (m : Mat) : List Nat :=
  (List.range m.rows).flatMap fun y => (List.range m.cols).map fun x => m.data y x

/-- Modelled from the spec: `cv::meanStdDev` (line 52) is OpenCV library code.
Section 4.3, step 2: the mean and the population standard deviation over all
pixels, `sqrt (max (Σ v² / n - mean²) 0)`. The square root is the parameter
`sqrt`. -/
def meanStdDev (sqrt : ℚ → ℚ) (m : Mat) : ℚ × ℚ :=
  let total : ℚ := ((m.rows * m.cols : Nat) : ℚ)
  let sum : ℚ := ((m.samples.sum : Nat) : ℚ)
  let sqsum : ℚ := (((m.samples.map fun v => v * v).sum : Nat) : ℚ)
  let mean : ℚ := sum / total
  (mean, sqrt (max (sqsum / total - mean * mean) 0))

/-- The function `GetFocusLevel` (lines 31-64): crop the region, convert it to
`Mono8`, apply the Laplacian and return the square of the standard deviation
of the response. An exception of `GetAoi` propagates to the caller. The product
of line 55 is the exact product of the two rationals; the rounding of the
double product is not modelled. -/
def GetFocusLevel (sqrt : ℚ → ℚ) (rawImage : CPylonImage)
    (offsetX offsetY roiWidth roiHeight : Int) : Except GenericException ℚ :=
  match rawImage.GetAoi offsetX offsetY roiWidth roiHeight with
  | .error e => .error e
  | .ok roiImage =>
    let convertedImage := Convert roiImage
    let matImage := matOfImage convertedImage
    let lapMat := Laplacian matImage
    let stddev := (meanStdDev sqrt lapMat).2
    let variance := stddev * stddev
    .ok variance

/-- A computable rounded square root on the rationals (integer square roots of
numerator and denominator); it instantiates the parameter `sqrt` at concrete
inputs and, as the library routine does, maps 0 to 0. -/
def sqrtApprox (q : ℚ) : ℚ :=
  (Nat.sqrt q.num.toNat : ℚ) / (Nat.sqrt q.den : ℚ)

/-! ## The acquisition loop -/

/-- What the frame source has in store for one request (specification,
section 6): a frame, a per-frame capture failure with its code and
description, or nothing within the wait. -/
inductive FrameResult
  | Delivered (image : CPylonImage)
  | Failed (errorCode : Nat) (errorDescription : String)
  | TimedOut

/-- The grab result that `RetrieveResult` hands to the loop: `GrabSucceeded()`
with the image buffer, or a failed grab with `GetErrorCode()` and
`GetErrorDescription()`. -/
inductive CGrabResult
  | Succeeded (image : CPylonImage)
  | Failed (errorCode : Nat) (errorDescription : String)

/-- Modelled from the spec: `CInstantCamera::RetrieveResult(5000, ptrGrabResult,
TimeoutHandling_ThrowException)` (line 102) is pylon library code. Section 4.5
and 6: the next result of the frame source is handed over, delivered or
failed; when the source times out, or has nothing more to deliver, the call
throws. The second component is what the source still has in store. -/
def RetrieveResult :
    List FrameResult → Except GenericException (CGrabResult × List FrameResult)
  | [] => .error .TimeoutException
  | .TimedOut :: _ => .error .TimeoutException
  | .Delivered image :: rest => .ok (.Succeeded image, rest)
  | .Failed errorCode errorDescription :: rest => .ok (.Failed errorCode errorDescription, rest)

/-- One line written to `cout` by the loop: the focus report of line 122 or
the error report of line 127. -/
inductive Report
  | focus (FocusLevel bestFocusSoFar : ℚ)
  | error (errorCode : Nat) (errorDescription : String)
  deriving DecidableEq

/-- The state of a session: the variable `bestFocusSoFar` (line 93) and the
reports written so far, in order. -/
structure Session where
  bestFocusSoFar : ℚ
  cout : List Report

/-- Line 111: `int roiOffsetX = ptrGrabResult->GetWidth() / 2`. `GetWidth()` is
a `uint32_t`, so the unsigned quotient is below `2^31` and its conversion to
`int` is exact. -/
def roiOffsetX (image : CPylonImage) : Int := ((image.width / 2 : Nat) : Int)

/-- Line 112: `int roiOffsetY = ptrGrabResult->GetHeight() / 2`. -/
def roiOffsetY (image : CPylonImage) : Int := ((image.height / 2 : Nat) : Int)

/-- Line 113: `int roiWidth = 300`. -/
def roiWidth : Int := 300

/-- Line 114: `int roiHeight = 300`. -/
def roiHeight : Int := 300

/-- Lines 116-117: the focus level of a grabbed image, `GetFocusLevel` on the
region of lines 111-114. -/
def grabFocus (sqrt : ℚ → ℚ) (image : CPylonImage) : Except GenericException ℚ :=
  GetFocusLevel sqrt image (roiOffsetX image) (roiOffsetY image) roiWidth roiHeight

/-- Lines 119-120, `if (FocusLevel > bestFocusSoFar) bestFocusSoFar = FocusLevel;`:
the value of `bestFocusSoFar` after the statement. -/
def updateBest (bestFocusSoFar FocusLevel : ℚ) : ℚ :=
  if FocusLevel > bestFocusSoFar then FocusLevel else bestFocusSoFar

/-- The body of the loop after `RetrieveResult` returned (lines 104-128): for a
succeeded grab compute the focus level, replace `bestFocusSoFar` when the level
is greater, and write the focus report; for a failed grab write the error
report. An exception of `GetFocusLevel` leaves the body. -/
def loopBody (sqrt : ℚ → ℚ) (s : Session) : CGrabResult → Except GenericException Session
  | .Failed errorCode errorDescription =>
    .ok ⟨s.bestFocusSoFar, s.cout ++ [.error errorCode errorDescription]⟩
  | .Succeeded image =>
    match grabFocus sqrt image with
    | .error e => .error e
    | .ok FocusLevel =>
      let bestFocusSoFar := updateBest s.bestFocusSoFar FocusLevel
      .ok ⟨bestFocusSoFar, s.cout ++ [.focus FocusLevel bestFocusSoFar]⟩

/-- Lines 119-122 as a step on the session, given the focus level that line
117 obtained: update `bestFocusSoFar` and write the focus report. -/
def reportFocus (s : Session) (FocusLevel : ℚ) : Session :=
  ⟨updateBest s.bestFocusSoFar FocusLevel,
    s.cout ++ [.focus FocusLevel (updateBest s.bestFocusSoFar FocusLevel)]⟩

/-- Line 127 as a step on the session: write the error report. -/
def reportError (s : Session) (errorCode : Nat) (errorDescription : String) : Session :=
  ⟨s.bestFocusSoFar, s.cout ++ [.error errorCode errorDescription]⟩

/-- How the loop was left: the session state at that point and the exception
that ended it, if one did. -/
structure LoopResult where
  session : Session
  exception : Option GenericException

/-- The loop `while (camera.IsGrabbing())` of lines 98-129 after
`StartGrabbing(n)`. The first argument is the number of results still to be
retrieved before the camera stops grabbing: by the comment on line 101 and
section 4.5 of the specification `RetrieveResult` stops the grabbing once `n`
results, succeeded or failed, have been retrieved, so `IsGrabbing()` holds
exactly while that number is positive. An exception leaves the loop with the
state reached before the iteration that raised it. -/
def grabLoop (sqrt : ℚ → ℚ) : Nat → List FrameResult → Session → LoopResult
  | 0, _, s => ⟨s, none⟩
  | n + 1, source, s =>
    match RetrieveResult source with
    | .error e => ⟨s, some e⟩
    | .ok (ptrGrabResult, source') =>
      match loopBody sqrt s ptrGrabResult with
      | .error e => ⟨s, some e⟩
      | .ok s' => grabLoop sqrt n source' s'

/-- What the program leaves behind: its exit code and the reports on `cout`. -/
structure ProgramResult where
  exitCode : Int
  cout : List Report

/-- The program `main` (lines 66-144) for a frame budget
`countOfImagesToGrab`, device set-up (lines 78-88) taken to succeed: `exitCode`
starts at 0, the session runs from `bestFocusSoFar = 0` inside the `try`
block, and the handler of `GenICam::GenericException` sets `exitCode = 1`. The
line that names the device and the messages on `cerr` are not reports and
are left out. -/
def mainWith (sqrt : ℚ → ℚ) (countOfImagesToGrab : Nat) (source : List FrameResult) :
    ProgramResult :=
  let r := grabLoop sqrt countOfImagesToGrab source ⟨0, []⟩
  match r.exception with
  | none => ⟨0, r.session.cout⟩
  | some _ => ⟨1, r.session.cout⟩

/-- The program with the budget of the sample, `c_countOfImagesToGrab`. -/
def main (sqrt : ℚ → ℚ) (source : List FrameResult) : ProgramResult :=
  mainWith sqrt c_countOfImagesToGrab source

/-- A frame of the given size whose pixels all have intensity `v`. -/
def uniformImage (width height : Nat) (v : Fin 256) : CPylonImage :=
  ⟨width, height, fun _ _ => v⟩

/-- A 600 × 600 frame of horizontal stripes: the even rows are dark, the odd
rows have intensity `c`. -/
def stripedImage (c : Fin 256) : CPylonImage :=
  ⟨600, 600, fun _ y => if y % 2 = 0 then 0 else c⟩

/-- A dark 3 × 3 frame with one pixel of intensity 10 in its middle. -/
def brightPixel : CPylonImage :=
  ⟨3, 3, fun x y => if x = 1 ∧ y = 1 then 10 else 0⟩

/-- Whether a line on `cout` is a focus report. -/
def Report.isFocus : Report → Bool
  | .focus _ _ => true
  | .error _ _ => false

/-- Whether a result of the frame source is a delivered frame. -/
def FrameResult.isDelivered : FrameResult → Bool
  | .Delivered _ => true
  | _ => false

/-- Whether a result of the frame source is a failed frame. -/
def FrameResult.isFailed : FrameResult → Bool
  | .Failed _ _ => true
  | _ => false

/-- The focus reports of a run of frames with the given focus levels, when the
best value before the run is `b`: each level paired with the greater of the
best value before it and the level itself. -/
def runningReports (b : ℚ) : List ℚ → List Report
  | [] => []
  | l :: ls => .focus l (max b l) :: runningReports (max b l) ls

/-- A result of the frame source that the loop body handles without raising:
a failed frame, or a delivered frame of at least 599 × 599 pixels (one whose
region of lines 111-114 is in bounds). -/
def FrameResult.processable : FrameResult → Prop
  | .Delivered image => 599 ≤ image.width ∧ 599 ≤ image.height
  | .Failed _ _ => True
  | .TimedOut => False

/-! ## Lemmas on the sharpness scorer -/

theorem borderInterpolate_lt (p : Int) (len : Nat) (hlen : 0 < len)
    (hlo : -1 ≤ p) : borderInterpolate p len < len := by
  unfold borderInterpolate
  split_ifs <;> omega

theorem saturate_cast_zero : saturate_cast 0 = 0 := by
  simp [saturate_cast]

/-- On a matrix whose samples all equal `v` the Laplacian response is 0 at
every position inside the matrix. -/
theorem Laplacian_uniform (src : Mat) (v : Nat)
    (hu : ∀ y x, y < src.rows → x < src.cols → src.data y x = v)
    (y x : Nat) (hy : y < src.rows) (hx : x < src.cols) :
    (Laplacian src).data y x = 0 := by
  have hr : 0 < src.rows := by omega
  have hc : 0 < src.cols := by omega
  have h1 := hu _ x (borderInterpolate_lt ((y : Int) - 1) src.rows hr (by omega)) hx
  have h2 := hu _ x (borderInterpolate_lt ((y : Int) + 1) src.rows hr (by omega)) hx
  have h3 := hu y _ hy (borderInterpolate_lt ((x : Int) - 1) src.cols hc (by omega))
  have h4 := hu y _ hy (borderInterpolate_lt ((x : Int) + 1) src.cols hc (by omega))
  have h5 := hu y x hy hx
  simp only [Laplacian, h1, h2, h3, h4, h5]
  have : ((v : Int) + v + v + v - 4 * v) = 0 := by ring
  rw [this, saturate_cast_zero]

theorem mem_samples (m : Mat) (a : Nat) (ha : a ∈ m.samples) :
    ∃ y x, y < m.rows ∧ x < m.cols ∧ m.data y x = a := by
  simp only [Mat.samples, List.mem_flatMap, List.mem_map, List.mem_range] at ha
  obtain ⟨y, hy, x, hx, h⟩ := ha
  exact ⟨y, x, hy, hx, h⟩

/-- A matrix whose samples are all 0 has standard deviation `sqrt 0`. -/
theorem meanStdDev_zero (sqrt : ℚ → ℚ) (m : Mat)
    (hz : ∀ y x, y < m.rows → x < m.cols → m.data y x = 0) :
    (meanStdDev sqrt m).2 = sqrt 0 := by
  have hall : ∀ a ∈ m.samples, a = 0 := by
    intro a ha
    obtain ⟨y, x, hy, hx, h⟩ := mem_samples m a ha
    rw [← h]
    exact hz y x hy hx
  have hsum : m.samples.sum = 0 := List.sum_eq_zero hall
  have hsq : (m.samples.map fun v => v * v).sum = 0 := by
    apply List.sum_eq_zero
    intro a ha
    simp only [List.mem_map] at ha
    obtain ⟨b, hb, rfl⟩ := ha
    simp [hall b hb]
  simp [meanStdDev, hsum, hsq]

/-- The scorer on an in-bounds region of positive size whose pixels all equal
`v`: the focus level is `sqrt 0 * sqrt 0`. -/
theorem GetFocusLevel_uniform (sqrt : ℚ → ℚ) (img : CPylonImage)
    (offsetX offsetY rw rh : Int) (v : Fin 256)
    (hb : roiValid img offsetX offsetY rw rh)
    (hu : ∀ x y, x < rw.toNat → y < rh.toNat →
      img.pixel (offsetX.toNat + x) (offsetY.toNat + y) = v) :
    GetFocusLevel sqrt img offsetX offsetY rw rh = .ok (sqrt 0 * sqrt 0) := by
  simp only [GetFocusLevel, CPylonImage.GetAoi, if_pos hb]
  rw [meanStdDev_zero]
  intro y x hy hx
  have hy1 : y < (matOfImage (Convert ⟨rw.toNat, rh.toNat,
      fun x y => img.pixel (offsetX.toNat + x) (offsetY.toNat + y)⟩)).rows := hy
  have hx1 : x < (matOfImage (Convert ⟨rw.toNat, rh.toNat,
      fun x y => img.pixel (offsetX.toNat + x) (offsetY.toNat + y)⟩)).cols := hx
  apply Laplacian_uniform _ v.val _ y x hy1 hx1
  intro y x hy hx
  simp only [matOfImage, Convert] at hy hx ⊢
  rw [hu x y hx hy]

theorem sqrtApprox_zero : sqrtApprox 0 = 0 := by
  simp [sqrtApprox]

/-- The scorer tells a frame with a bright pixel from a flat one: the Laplacian
response of `brightPixel` is 20 at the four neighbours of the bright pixel
(through the reflected border) and 0 elsewhere, of variance `8000 / 81`. -/
theorem GetFocusLevel_brightPixel (sqrt : ℚ → ℚ) :
    GetFocusLevel sqrt brightPixel 0 0 3 3 = .ok (sqrt (8000 / 81) * sqrt (8000 / 81)) := by
  have hb : roiValid brightPixel 0 0 3 3 := by decide
  have hs : (Laplacian (matOfImage (Convert (⟨(3 : Int).toNat, (3 : Int).toNat,
      fun x y => brightPixel.pixel ((0 : Int).toNat + x) ((0 : Int).toNat + y)⟩ :
        CPylonImage)))).samples = [0, 20, 0, 20, 0, 20, 0, 20, 0] := by
    decide
  have h3 : (3 : Int).toNat = 3 := rfl
  simp only [GetFocusLevel, CPylonImage.GetAoi, if_pos hb, meanStdDev, hs]
  norm_num [Laplacian, matOfImage, Convert, h3]

/-- The scorer returns a level whenever the region is accepted. -/
theorem GetFocusLevel_ok (sqrt : ℚ → ℚ) (img : CPylonImage) (offsetX offsetY rw rh : Int)
    (hb : roiValid img offsetX offsetY rw rh) :
    ∃ l, GetFocusLevel sqrt img offsetX offsetY rw rh = .ok l := by
  simp only [GetFocusLevel, CPylonImage.GetAoi, if_pos hb]
  exact ⟨_, rfl⟩

/-- The scorer fails with `InvalidRegionError` whenever the region is not
accepted. -/
theorem GetFocusLevel_error (sqrt : ℚ → ℚ) (img : CPylonImage) (offsetX offsetY rw rh : Int)
    (hb : ¬ roiValid img offsetX offsetY rw rh) :
    GetFocusLevel sqrt img offsetX offsetY rw rh = .error .InvalidRegionError := by
  simp only [GetFocusLevel, CPylonImage.GetAoi, if_neg hb]

/-- The region of the loop is in bounds exactly for frames of at least
599 × 599 pixels. -/
theorem grabRoi_inBounds_iff (img : CPylonImage) :
    roiInBounds img (roiOffsetX img) (roiOffsetY img) roiWidth roiHeight ↔
      599 ≤ img.width ∧ 599 ≤ img.height := by
  simp only [roiInBounds, roiOffsetX, roiOffsetY, roiWidth, roiHeight]
  omega

/-- The region of the loop is accepted exactly for frames of at least
599 × 599 pixels. -/
theorem grabRoi_valid_iff (img : CPylonImage) :
    roiValid img (roiOffsetX img) (roiOffsetY img) roiWidth roiHeight ↔
      599 ≤ img.width ∧ 599 ≤ img.height := by
  rw [← grabRoi_inBounds_iff]
  exact ⟨fun h => h.2.2, fun h => ⟨by decide, by decide, h⟩⟩

theorem grabFocus_ok (sqrt : ℚ → ℚ) (img : CPylonImage)
    (hw : 599 ≤ img.width) (hh : 599 ≤ img.height) : ∃ l, grabFocus sqrt img = .ok l :=
  GetFocusLevel_ok sqrt img _ _ _ _ ((grabRoi_valid_iff img).2 ⟨hw, hh⟩)

theorem grabFocus_error (sqrt : ℚ → ℚ) (img : CPylonImage)
    (hs : ¬ (599 ≤ img.width ∧ 599 ≤ img.height)) :
    grabFocus sqrt img = .error .InvalidRegionError :=
  GetFocusLevel_error sqrt img _ _ _ _ (fun hb => hs ((grabRoi_valid_iff img).1 hb))

/-- A uniform frame of at least 599 × 599 pixels has focus level 0. -/
theorem grabFocus_uniform (sqrt : ℚ → ℚ) (h0 : sqrt 0 = 0) (w h : Nat) (v : Fin 256)
    (hw : 599 ≤ w) (hh : 599 ≤ h) : grabFocus sqrt (uniformImage w h v) = .ok 0 := by
  have hb : roiValid (uniformImage w h v) (roiOffsetX (uniformImage w h v))
      (roiOffsetY (uniformImage w h v)) roiWidth roiHeight :=
    (grabRoi_valid_iff _).2 ⟨hw, hh⟩
  have := GetFocusLevel_uniform sqrt (uniformImage w h v) _ _ _ _ v hb (fun _ _ _ _ => rfl)
  rw [h0, mul_zero] at this
  exact this

/-! ## A frame with a positive focus level -/

/-- Sum over an even number of rows of a quantity that alternates between `a`
on the even rows and `b` on the odd rows. -/
theorem sum_range_alternating (a b : Nat) :
    ∀ k : Nat, ((List.range (2 * k)).map fun y => if y % 2 = 0 then a else b).sum
      = k * (a + b) := by
  intro k
  induction k with
  | zero => simp
  | succ k ih =>
    rw [show 2 * (k + 1) = 2 * k + 1 + 1 by ring, List.range_succ, List.range_succ]
    simp only [List.map_append, List.sum_append, List.map_cons, List.map_nil, List.sum_cons,
      List.sum_nil, ih]
    have h1 : (2 * k) % 2 = 0 := by omega
    have h2 : ¬ (2 * k + 1) % 2 = 0 := by omega
    rw [if_pos h1, if_neg h2]
    ring

/-- The sum of a function of the samples of a matrix whose rows are constant. -/
theorem samples_map_sum_rows (m : Mat) (g : Nat → Nat) (φ : Nat → Nat)
    (h : ∀ y x, y < m.rows → x < m.cols → m.data y x = g y) :
    (m.samples.map φ).sum = m.cols * ((List.range m.rows).map fun y => φ (g y)).sum := by
  have hrow : ∀ n, n ≤ m.rows →
      (((List.range n).flatMap fun y => (List.range m.cols).map fun x => m.data y x).map φ).sum
        = m.cols * ((List.range n).map fun y => φ (g y)).sum := by
    intro n
    induction n with
    | zero => intro _; simp
    | succ n ih =>
      intro hn
      have hconst : ((List.range m.cols).map fun x => m.data n x)
          = (List.range m.cols).map fun _ => g n := by
        apply List.map_congr_left
        intro x hx
        exact h n x (by omega) (List.mem_range.1 hx)
      rw [List.range_succ]
      simp only [List.flatMap_append, List.map_append, List.sum_append, List.flatMap_cons,
        List.flatMap_nil, List.append_nil, List.map_cons, List.map_nil, List.sum_cons,
        List.sum_nil, ih (by omega), hconst]
      simp [Nat.mul_add]
  exact hrow m.rows (le_refl _)

/-- The standard deviation of a matrix with an even number of rows whose even
rows hold `a` and whose odd rows hold 0: the variance is `(a / 2)²`. -/
theorem meanStdDev_rowStripes (sqrt : ℚ → ℚ) (m : Mat) (k a : Nat) (hk : 0 < k)
    (hcols : 0 < m.cols) (hrows : m.rows = 2 * k)
    (h : ∀ y x, y < m.rows → x < m.cols → m.data y x = if y % 2 = 0 then a else 0) :
    (meanStdDev sqrt m).2 = sqrt (((a : ℚ) / 2) ^ 2) := by
  have hsum : m.samples.sum = m.cols * (k * a) := by
    have := samples_map_sum_rows m (fun y => if y % 2 = 0 then a else 0) id h
    simp only [List.map_id, id] at this
    rw [this, hrows, sum_range_alternating a 0 k, Nat.add_zero]
  have hsq : (m.samples.map fun v => v * v).sum = m.cols * (k * (a * a)) := by
    have := samples_map_sum_rows m (fun y => if y % 2 = 0 then a else 0) (fun v => v * v) h
    rw [this, hrows]
    have hite : (fun y => (fun v => v * v) (if y % 2 = 0 then a else 0))
        = fun y => if y % 2 = 0 then a * a else 0 := by
      funext y
      split_ifs <;> simp
    rw [hite, sum_range_alternating (a * a) 0 k, Nat.add_zero]
  have hk' : (k : ℚ) ≠ 0 := by exact_mod_cast (Nat.pos_iff_ne_zero.1 hk)
  have hc' : (m.cols : ℚ) ≠ 0 := by exact_mod_cast (Nat.pos_iff_ne_zero.1 hcols)
  simp only [meanStdDev, hsum, hsq, hrows]
  have hvar : (((m.cols * (k * (a * a)) : Nat) : ℚ) / ((2 * k * m.cols : Nat) : ℚ)
      - ((m.cols * (k * a) : Nat) : ℚ) / ((2 * k * m.cols : Nat) : ℚ)
        * (((m.cols * (k * a) : Nat) : ℚ) / ((2 * k * m.cols : Nat) : ℚ)))
      = ((a : ℚ) / 2) ^ 2 := by
    push_cast
    field_simp
    ring
  rw [hvar, max_eq_left (sq_nonneg _)]

/-- The Laplacian response of a matrix with an even number of rows whose even
rows hold 0 and whose odd rows hold `c ≤ 127`: `2 c` on the even rows, and 0 on
the odd rows, where the negative response `-2 c` saturates. -/
theorem Laplacian_rowStripes (src : Mat) (c : Nat) (hc : c ≤ 127) (hev : src.rows % 2 = 0)
    (hdata : ∀ y x, y < src.rows → x < src.cols →
      src.data y x = if y % 2 = 0 then 0 else c)
    (y x : Nat) (hy : y < src.rows) (hx : x < src.cols) :
    (Laplacian src).data y x = if y % 2 = 0 then 2 * c else 0 := by
  have hr : 0 < src.rows := by omega
  have hcl : 0 < src.cols := by omega
  have hu : borderInterpolate ((y : Int) - 1) src.rows % 2 ≠ y % 2 := by
    unfold borderInterpolate
    split_ifs <;> omega
  have hd : borderInterpolate ((y : Int) + 1) src.rows % 2 ≠ y % 2 := by
    unfold borderInterpolate
    split_ifs <;> omega
  have h1 := hdata _ x (borderInterpolate_lt ((y : Int) - 1) src.rows hr (by omega)) hx
  have h2 := hdata _ x (borderInterpolate_lt ((y : Int) + 1) src.rows hr (by omega)) hx
  have h3 := hdata y _ hy (borderInterpolate_lt ((x : Int) - 1) src.cols hcl (by omega))
  have h4 := hdata y _ hy (borderInterpolate_lt ((x : Int) + 1) src.cols hcl (by omega))
  have h5 := hdata y x hy hx
  simp only [Laplacian, h1, h2, h3, h4, h5]
  rcases Nat.mod_two_eq_zero_or_one y with hy0 | hy1
  · have hu0 : ¬ borderInterpolate ((y : Int) - 1) src.rows % 2 = 0 := by omega
    have hd0 : ¬ borderInterpolate ((y : Int) + 1) src.rows % 2 = 0 := by omega
    rw [if_neg hu0, if_neg hd0, if_pos hy0]
    unfold saturate_cast
    split_ifs <;> omega
  · have hu0 : borderInterpolate ((y : Int) - 1) src.rows % 2 = 0 := by omega
    have hd0 : borderInterpolate ((y : Int) + 1) src.rows % 2 = 0 := by omega
    have hy0 : ¬ y % 2 = 0 := by omega
    rw [if_pos hu0, if_pos hd0, if_neg hy0]
    unfold saturate_cast
    split_ifs <;> omega

/-- The scorer on an accepted region with an even number of rows whose even
rows are dark and whose odd rows have intensity `c ≤ 127`: the response has
variance `c²`, so the level is `sqrt (c²) * sqrt (c²)`. -/
theorem GetFocusLevel_rowStripes (sqrt : ℚ → ℚ) (img : CPylonImage)
    (offsetX offsetY rw rh : Int) (c k : Nat) (hc : c ≤ 127) (hk : 0 < k)
    (hrh : rh.toNat = 2 * k)
    (hv : roiValid img offsetX offsetY rw rh)
    (hp : ∀ x y, x < rw.toNat → y < rh.toNat →
      (img.pixel (offsetX.toNat + x) (offsetY.toNat + y)).val = if y % 2 = 0 then 0 else c) :
    GetFocusLevel sqrt img offsetX offsetY rw rh
      = .ok (sqrt ((c : ℚ) ^ 2) * sqrt ((c : ℚ) ^ 2)) := by
  have hrw : 0 < rw.toNat := by
    have := hv.1
    omega
  simp only [GetFocusLevel, CPylonImage.GetAoi, if_pos hv]
  generalize hM : matOfImage (Convert _) = M
  have hrows : M.rows = rh.toNat := by rw [← hM]; rfl
  have hcols : M.cols = rw.toNat := by rw [← hM]; rfl
  have hdata : ∀ y x, y < M.rows → x < M.cols →
      M.data y x = if y % 2 = 0 then 0 else c := by
    intro y x hy hx
    rw [hrows] at hy
    rw [hcols] at hx
    rw [← hM]
    exact hp x y hx hy
  have hL : ∀ y x, y < (Laplacian M).rows → x < (Laplacian M).cols →
      (Laplacian M).data y x = if y % 2 = 0 then 2 * c else 0 := by
    intro y x hy hx
    exact Laplacian_rowStripes M c hc (by rw [hrows, hrh]; omega) hdata y x hy hx
  rw [meanStdDev_rowStripes sqrt (Laplacian M) k (2 * c) hk
    (show 0 < M.cols by omega) (show M.rows = 2 * k by omega) hL]
  have : ((2 * c : Nat) : ℚ) / 2 = (c : ℚ) := by push_cast; ring
  rw [this]

/-- The focus level of the striped frame of intensity `c ≤ 127`. -/
theorem grabFocus_striped (sqrt : ℚ → ℚ) (c : Fin 256) (hc : c.val ≤ 127) :
    grabFocus sqrt (stripedImage c)
      = .ok (sqrt ((c.val : ℚ) ^ 2) * sqrt ((c.val : ℚ) ^ 2)) := by
  have hv : roiValid (stripedImage c) (roiOffsetX (stripedImage c))
      (roiOffsetY (stripedImage c)) roiWidth roiHeight :=
    (grabRoi_valid_iff _).2 ⟨by simp [stripedImage], by simp [stripedImage]⟩
  refine GetFocusLevel_rowStripes sqrt (stripedImage c) _ _ _ _ c.val 150 hc (by decide)
    rfl hv ?_
  intro x y _ _
  simp only [stripedImage, roiOffsetY]
  have h300 : (((600 / 2 : Nat) : Int).toNat) = 300 := rfl
  rw [h300]
  by_cases h0 : y % 2 = 0
  · rw [if_pos (show (300 + y) % 2 = 0 by omega), if_pos h0]
    rfl
  · rw [if_neg (show ¬ (300 + y) % 2 = 0 by omega), if_neg h0]

theorem sqrtApprox_sq (n : Nat) : sqrtApprox ((n : ℚ) ^ 2) = n := by
  have h : ((n : ℚ) ^ 2) = ((n * n : Nat) : ℚ) := by push_cast; ring
  rw [h]
  unfold sqrtApprox
  rw [Rat.num_natCast, Rat.den_natCast, Int.toNat_natCast, Nat.sqrt_eq, Nat.sqrt_one]
  simp

/-- With the rounded square root `sqrtApprox` the striped frame of intensity
`n ≤ 127` has focus level `n²`. -/
theorem grabFocus_striped_level (c : Fin 256) (n : Nat) (hn : c.val = n) (hc : n ≤ 127)
    (l : ℚ) (hl : l = (n : ℚ) * n) : grabFocus sqrtApprox (stripedImage c) = .ok l := by
  rw [grabFocus_striped sqrtApprox c (by omega), sqrtApprox_sq, hn, hl]

/-! ## Lemmas on the acquisition loop -/

theorem grabLoop_zero (sqrt : ℚ → ℚ) (source : List FrameResult) (s : Session) :
    grabLoop sqrt 0 source s = ⟨s, none⟩ := rfl

theorem grabLoop_nil (sqrt : ℚ → ℚ) (n : Nat) (s : Session) :
    grabLoop sqrt (n + 1) [] s = ⟨s, some .TimeoutException⟩ := rfl

theorem grabLoop_timedOut (sqrt : ℚ → ℚ) (n : Nat) (rest : List FrameResult) (s : Session) :
    grabLoop sqrt (n + 1) (.TimedOut :: rest) s = ⟨s, some .TimeoutException⟩ := rfl

theorem grabLoop_failed (sqrt : ℚ → ℚ) (n : Nat) (rest : List FrameResult) (s : Session)
    (errorCode : Nat) (errorDescription : String) :
    grabLoop sqrt (n + 1) (.Failed errorCode errorDescription :: rest) s =
      grabLoop sqrt n rest
        ⟨s.bestFocusSoFar, s.cout ++ [.error errorCode errorDescription]⟩ := rfl

/-- The comparison-and-replace of lines 119-120 computes the maximum. -/
theorem updateBest_eq_max (b c : ℚ) : updateBest b c = max b c := by
  unfold updateBest
  split_ifs with h
  · exact (max_eq_right (le_of_lt h)).symm
  · exact (max_eq_left (not_lt.1 h)).symm

theorem loopBody_succeeded (sqrt : ℚ → ℚ) (s : Session) (image : CPylonImage) (l : ℚ)
    (hl : grabFocus sqrt image = .ok l) :
    loopBody sqrt s (.Succeeded image) =
      .ok ⟨max s.bestFocusSoFar l, s.cout ++ [.focus l (max s.bestFocusSoFar l)]⟩ := by
  simp only [loopBody, hl, updateBest_eq_max]

theorem grabLoop_delivered (sqrt : ℚ → ℚ) (n : Nat) (rest : List FrameResult) (s : Session)
    (image : CPylonImage) (l : ℚ) (hl : grabFocus sqrt image = .ok l) :
    grabLoop sqrt (n + 1) (.Delivered image :: rest) s =
      grabLoop sqrt n rest
        ⟨max s.bestFocusSoFar l, s.cout ++ [.focus l (max s.bestFocusSoFar l)]⟩ := by
  simp only [grabLoop, RetrieveResult, loopBody_succeeded sqrt s image l hl]

theorem grabLoop_rejected (sqrt : ℚ → ℚ) (n : Nat) (rest : List FrameResult) (s : Session)
    (image : CPylonImage) (e : GenericException) (he : grabFocus sqrt image = .error e) :
    grabLoop sqrt (n + 1) (.Delivered image :: rest) s = ⟨s, some e⟩ := by
  simp only [grabLoop, RetrieveResult, loopBody, he]

/-- A run of delivered frames with known focus levels, within the budget:
the loop goes on after it with the running maximum and the running reports. -/
theorem grabLoop_run (sqrt : ℚ → ℚ) (frames : List CPylonImage) (levels : List ℚ)
    (hlev : List.Forall₂ (fun f l => grabFocus sqrt f = .ok l) frames levels) :
    ∀ (n : Nat) (rest : List FrameResult) (s : Session),
      grabLoop sqrt (frames.length + n) (frames.map .Delivered ++ rest) s =
        grabLoop sqrt n rest
          ⟨levels.foldl max s.bestFocusSoFar, s.cout ++ runningReports s.bestFocusSoFar levels⟩ := by
  induction hlev with
  | nil =>
    intro n rest s
    simp [runningReports]
  | @cons f l fs ls hfl _ ih =>
    intro n rest s
    simp only [List.length_cons, List.map_cons, List.cons_append, List.foldl_cons,
      runningReports]
    rw [show fs.length + 1 + n = (fs.length + n) + 1 by omega,
      grabLoop_delivered sqrt _ _ s _ _ hfl, ih]
    simp

theorem runningReports_length (ls : List ℚ) :
    ∀ b : ℚ, (runningReports b ls).length = ls.length := by
  induction ls with
  | nil => intro b; rfl
  | cons l ls ih => intro b; simp [runningReports, ih]

theorem runningReports_getElem? (ls : List ℚ) :
    ∀ (b : ℚ) (k : Nat) (l : ℚ), ls[k]? = some l →
      (runningReports b ls)[k]? = some (.focus l ((ls.take (k + 1)).foldl max b)) := by
  induction ls with
  | nil => intro b k l h; simp at h
  | cons a ls ih =>
    intro b k l h
    cases k with
    | zero =>
      simp only [List.getElem?_cons_zero, Option.some.injEq] at h
      simp [runningReports, h]
    | succ k =>
      simp only [List.getElem?_cons_succ] at h
      simp [runningReports, ih (max b a) k l h]

theorem runningReports_isFocus (ls : List ℚ) :
    ∀ b : ℚ, ∀ c ∈ runningReports b ls, c.isFocus = true := by
  induction ls with
  | nil => intro b c h; simp [runningReports] at h
  | cons l ls ih =>
    intro b c h
    simp only [runningReports, List.mem_cons] at h
    rcases h with rfl | h
    · rfl
    · exact ih _ c h

theorem le_foldl_max (ls : List ℚ) : ∀ b : ℚ, b ≤ ls.foldl max b := by
  induction ls with
  | nil => intro b; exact le_refl b
  | cons l ls ih => intro b; exact le_trans (le_max_left b l) (ih (max b l))

theorem mem_le_foldl_max (ls : List ℚ) : ∀ (b x : ℚ), x ∈ ls → x ≤ ls.foldl max b := by
  induction ls with
  | nil => intro b x h; simp at h
  | cons l ls ih =>
    intro b x h
    simp only [List.mem_cons] at h
    rcases h with rfl | h
    · exact le_trans (le_max_right b x) (le_foldl_max ls (max b x))
    · exact ih (max b l) x h

theorem foldl_max_mem (ls : List ℚ) : ∀ b : ℚ, ls.foldl max b = b ∨ ls.foldl max b ∈ ls := by
  induction ls with
  | nil => intro b; exact Or.inl rfl
  | cons l ls ih =>
    intro b
    simp only [List.foldl_cons, List.mem_cons]
    rcases ih (max b l) with h | h
    · rcases max_choice b l with hm | hm
      · exact Or.inl (by rw [h, hm])
      · exact Or.inr (Or.inl (by rw [h, hm]))
    · exact Or.inr (Or.inr h)

/-- From 0, over a non-empty list of non-negative levels, the running maximum
is an element of the list. -/
theorem foldl_max_zero_mem (ls : List ℚ) (hne : ls ≠ []) (hnn : ∀ x ∈ ls, 0 ≤ x) :
    ls.foldl max 0 ∈ ls := by
  rcases foldl_max_mem ls 0 with h | h
  · obtain ⟨a, as, rfl⟩ := List.exists_cons_of_ne_nil hne
    have ha : a ≤ (a :: as).foldl max 0 := mem_le_foldl_max _ 0 a (List.mem_cons_self a as)
    have ha0 : 0 ≤ a := hnn a (List.mem_cons_self a as)
    rw [h] at ha ⊢
    have : a = 0 := le_antisymm ha ha0
    rw [← this]
    exact List.mem_cons_self a as
  · exact h

/-- The loop never lowers `bestFocusSoFar`. -/
theorem grabLoop_best_le (sqrt : ℚ → ℚ) :
    ∀ (n : Nat) (source : List FrameResult) (s : Session),
      s.bestFocusSoFar ≤ (grabLoop sqrt n source s).session.bestFocusSoFar := by
  intro n
  induction n with
  | zero => intro source s; exact le_refl _
  | succ n ih =>
    intro source s
    cases source with
    | nil => exact le_refl _
    | cons r rest =>
      cases r with
      | TimedOut => exact le_refl _
      | Failed errorCode errorDescription =>
        rw [grabLoop_failed]
        exact ih rest _
      | Delivered image =>
        cases hf : grabFocus sqrt image with
        | error e =>
          rw [grabLoop_rejected sqrt n rest s image e hf]
        | ok l =>
          rw [grabLoop_delivered sqrt n rest s image l hf]
          exact le_trans (le_max_left _ _) (ih rest _)

/-- A session that consists of delivered frames with known focus levels and
has exactly that many frames as its budget. -/
theorem grabLoop_delivered_only (sqrt : ℚ → ℚ) (frames : List CPylonImage) (levels : List ℚ)
    (hlev : List.Forall₂ (fun f l => grabFocus sqrt f = .ok l) frames levels) (s : Session) :
    grabLoop sqrt frames.length (frames.map .Delivered) s =
      ⟨⟨levels.foldl max s.bestFocusSoFar, s.cout ++ runningReports s.bestFocusSoFar levels⟩,
        none⟩ := by
  have h := grabLoop_run sqrt frames levels hlev 0 [] s
  simp only [Nat.add_zero, List.append_nil, grabLoop_zero] at h
  exact h

/-- A run of processable results that fills the budget ends the loop normally,
with one report per result, a focus report exactly where the result was a
delivered frame; what the source has in store beyond the budget plays no role. -/
theorem grabLoop_processable (sqrt : ℚ → ℚ) (source : List FrameResult) :
    ∀ s : Session, (∀ r ∈ source, r.processable) →
      ∃ s', (∀ extra, grabLoop sqrt source.length (source ++ extra) s = ⟨s', none⟩) ∧
        s'.cout.map Report.isFocus
          = s.cout.map Report.isFocus ++ source.map FrameResult.isDelivered := by
  induction source with
  | nil =>
    intro s _
    exact ⟨s, fun extra => rfl, by simp⟩
  | cons r rest ih =>
    intro s hok
    have hrest : ∀ r ∈ rest, r.processable := fun x hx => hok x (List.mem_cons_of_mem r hx)
    have hr : r.processable := hok r (List.mem_cons_self r rest)
    cases r with
    | TimedOut => exact False.elim hr
    | Failed errorCode errorDescription =>
      obtain ⟨s', hrun, hmap⟩ :=
        ih ⟨s.bestFocusSoFar, s.cout ++ [.error errorCode errorDescription]⟩ hrest
      refine ⟨s', ?_, ?_⟩
      · intro extra
        simp only [List.length_cons, List.cons_append]
        rw [grabLoop_failed, hrun extra]
      · rw [hmap]
        simp [Report.isFocus, FrameResult.isDelivered]
    | Delivered image =>
      obtain ⟨l, hl⟩ := grabFocus_ok sqrt image hr.1 hr.2
      obtain ⟨s', hrun, hmap⟩ :=
        ih ⟨max s.bestFocusSoFar l, s.cout ++ [.focus l (max s.bestFocusSoFar l)]⟩ hrest
      refine ⟨s', ?_, ?_⟩
      · intro extra
        simp only [List.length_cons, List.cons_append]
        rw [grabLoop_delivered sqrt _ _ s image l hl, hrun extra]
      · rw [hmap]
        simp [Report.isFocus, FrameResult.isDelivered]

/-- A run of failed frames within the budget: the loop goes on after it with
the same best value and as many error reports added. -/
theorem grabLoop_failed_run (sqrt : ℚ → ℚ) (fails : List FrameResult) :
    ∀ (n : Nat) (rest : List FrameResult) (s : Session), (∀ r ∈ fails, r.isFailed = true) →
      ∃ errs : List Report, (∀ c ∈ errs, c.isFocus = false) ∧
        grabLoop sqrt (fails.length + n) (fails ++ rest) s =
          grabLoop sqrt n rest ⟨s.bestFocusSoFar, s.cout ++ errs⟩ := by
  induction fails with
  | nil =>
    intro n rest s _
    exact ⟨[], by simp, by simp⟩
  | cons r fails ih =>
    intro n rest s hf
    have hr := hf r (List.mem_cons_self r fails)
    cases r with
    | TimedOut => simp [FrameResult.isFailed] at hr
    | Delivered image => simp [FrameResult.isFailed] at hr
    | Failed errorCode errorDescription =>
      obtain ⟨errs, herrs, hrun⟩ := ih n rest
        ⟨s.bestFocusSoFar, s.cout ++ [.error errorCode errorDescription]⟩
        (fun x hx => hf x (List.mem_cons_of_mem _ hx))
      refine ⟨.error errorCode errorDescription :: errs, ?_, ?_⟩
      · intro c hc
        simp only [List.mem_cons] at hc
        rcases hc with rfl | hc
        · rfl
        · exact herrs c hc
      · simp only [List.length_cons, List.cons_append]
        rw [show fails.length + 1 + n = (fails.length + n) + 1 by omega, grabLoop_failed, hrun]
        simp

/-- The running maximum and the running reports are what the step of lines
119-122 yields when it is applied to the levels one after the other. -/
theorem foldl_reportFocus (levels : List ℚ) :
    ∀ s : Session, levels.foldl reportFocus s =
      ⟨levels.foldl max s.bestFocusSoFar, s.cout ++ runningReports s.bestFocusSoFar levels⟩ := by
  induction levels with
  | nil => intro s; simp [runningReports]
  | cons l ls ih =>
    intro s
    simp only [List.foldl_cons, ih, reportFocus, updateBest_eq_max, runningReports,
      List.append_assoc, List.singleton_append]

/-- Failed frames change neither the best value, nor the way the loop is left,
nor the focus reports: a session and the same session with its failed frames
taken out (and the budget reduced accordingly) agree on all three. -/
theorem grabLoop_without_failed (sqrt : ℚ → ℚ) (source : List FrameResult) :
    ∀ s s' : Session, s.bestFocusSoFar = s'.bestFocusSoFar →
      s.cout.filter Report.isFocus = s'.cout.filter Report.isFocus →
      (grabLoop sqrt source.length source s).session.bestFocusSoFar
        = (grabLoop sqrt (source.filter fun r => !r.isFailed).length
            (source.filter fun r => !r.isFailed) s').session.bestFocusSoFar ∧
      (grabLoop sqrt source.length source s).exception
        = (grabLoop sqrt (source.filter fun r => !r.isFailed).length
            (source.filter fun r => !r.isFailed) s').exception ∧
      (grabLoop sqrt source.length source s).session.cout.filter Report.isFocus
        = (grabLoop sqrt (source.filter fun r => !r.isFailed).length
            (source.filter fun r => !r.isFailed) s').session.cout.filter Report.isFocus := by
  induction source with
  | nil =>
    intro s s' hb hc
    exact ⟨hb, rfl, hc⟩
  | cons r rest ih =>
    intro s s' hb hc
    cases r with
    | TimedOut =>
      have hfil : (FrameResult.TimedOut :: rest).filter (fun r => !r.isFailed)
          = .TimedOut :: rest.filter (fun r => !r.isFailed) := rfl
      rw [hfil]
      simp only [List.length_cons, grabLoop_timedOut]
      exact ⟨hb, trivial, hc⟩
    | Failed errorCode errorDescription =>
      have hfil : (FrameResult.Failed errorCode errorDescription :: rest).filter
          (fun r => !r.isFailed) = rest.filter (fun r => !r.isFailed) := rfl
      rw [hfil]
      simp only [List.length_cons, grabLoop_failed]
      refine ih ⟨s.bestFocusSoFar, s.cout ++ [.error errorCode errorDescription]⟩ s' hb ?_
      rw [← hc]
      simp [Report.isFocus]
    | Delivered image =>
      have hfil : (FrameResult.Delivered image :: rest).filter (fun r => !r.isFailed)
          = .Delivered image :: rest.filter (fun r => !r.isFailed) := rfl
      rw [hfil]
      simp only [List.length_cons]
      cases hf : grabFocus sqrt image with
      | error e =>
        rw [grabLoop_rejected sqrt _ _ s image e hf, grabLoop_rejected sqrt _ _ s' image e hf]
        exact ⟨hb, rfl, hc⟩
      | ok l =>
        rw [grabLoop_delivered sqrt _ _ s image l hf, grabLoop_delivered sqrt _ _ s' image l hf]
        apply ih
        · rw [hb]
        · simp [Report.isFocus, hc, hb]

/-! ## The claims -/

/-- C1: for every sequence of successfully delivered frames whose focus levels
`l_1 .. l_n` are non-negative, the acquisition loop, started from
`bestFocusSoFar = 0` with these `n` frames as its session, ends without an
exception, has written exactly `n` reports, and its `k`-th report is the pair
of `l_k` and the maximum of `l_1 .. l_k`. The session it ends in is the one
that the step of lines 119-122 builds from the levels in arrival order, and on
the levels 12.5, 40, 31 that step builds the reports (12.5, 12.5), (40, 40),
(31, 40); that step is what the loop body does on a delivered frame of the
given level. -/
theorem acquisition_reports_running_maximum (sqrt : ℚ → ℚ) (frames : List CPylonImage)
    (levels : List ℚ)
    (hlev : List.Forall₂ (fun f l => grabFocus sqrt f = .ok l) frames levels)
    (hnn : ∀ l ∈ levels, 0 ≤ l) :
    (grabLoop sqrt frames.length (frames.map .Delivered) ⟨0, []⟩).exception = none ∧
    (grabLoop sqrt frames.length (frames.map .Delivered) ⟨0, []⟩).session.cout.length
      = frames.length ∧
    (∀ k l, levels[k]? = some l →
      ∃ m, (grabLoop sqrt frames.length (frames.map .Delivered) ⟨0, []⟩).session.cout[k]?
          = some (.focus l m) ∧
        m ∈ levels.take (k + 1) ∧ ∀ x ∈ levels.take (k + 1), x ≤ m) ∧
    (grabLoop sqrt frames.length (frames.map .Delivered) ⟨0, []⟩).session
      = levels.foldl reportFocus ⟨0, []⟩ ∧
    [12.5, 40, 31].foldl reportFocus ⟨0, []⟩
      = ⟨40, [.focus 12.5 12.5, .focus 40 40, .focus 31 40]⟩ ∧
    (∀ s image l, grabFocus sqrt image = .ok l →
      loopBody sqrt s (.Succeeded image) = .ok (reportFocus s l)) := by
  rw [grabLoop_delivered_only sqrt frames levels hlev]
  refine ⟨rfl, ?_, ?_, ?_, ?_, fun s image l hl => by simp only [loopBody, hl, reportFocus]⟩
  · simp [runningReports_length, hlev.length_eq]
  · intro k l hk
    refine ⟨(levels.take (k + 1)).foldl max 0, ?_, ?_, ?_⟩
    · simpa using runningReports_getElem? levels 0 k l hk
    · apply foldl_max_zero_mem
      · intro hnil
        have hlen : k < levels.length := by
          by_contra hge
          rw [List.getElem?_eq_none (by omega)] at hk
          exact Option.noConfusion hk
        have : (levels.take (k + 1)).length = 0 := by rw [hnil]; rfl
        rw [List.length_take] at this
        omega
      · intro x hx
        exact hnn x (List.mem_of_mem_take hx)
    · intro x hx
      exact mem_le_foldl_max _ 0 x hx
  · rw [foldl_reportFocus]
  · rw [foldl_reportFocus]
    simp only [List.nil_append, runningReports, List.foldl_cons, List.foldl_nil]
    norm_num

/-- Witness for C1: three striped frames of intensities 2, 3 and 1, whose focus
levels are 4, 9 and 1; the reports are (4, 4), (9, 9), (1, 9). -/
theorem acquisition_reports_running_maximum_witness :
    List.Forall₂ (fun f l => grabFocus sqrtApprox f = .ok l)
      [stripedImage 2, stripedImage 3, stripedImage 1] [4, 9, 1] ∧
    (∀ l ∈ [(4 : ℚ), 9, 1], 0 ≤ l) ∧
    (grabLoop sqrtApprox 3
      [.Delivered (stripedImage 2), .Delivered (stripedImage 3), .Delivered (stripedImage 1)]
      ⟨0, []⟩).session = ⟨9, [.focus 4 4, .focus 9 9, .focus 1 9]⟩ :=
  ⟨List.Forall₂.cons (grabFocus_striped_level 2 2 rfl (by decide) 4 (by norm_num))
      (List.Forall₂.cons (grabFocus_striped_level 3 3 rfl (by decide) 9 (by norm_num))
        (List.Forall₂.cons (grabFocus_striped_level 1 1 rfl (by decide) 1 (by norm_num))
          List.Forall₂.nil)),
    by
      intro l hl
      simp only [List.mem_cons, List.mem_singleton, List.not_mem_nil, or_false] at hl
      rcases hl with rfl | rfl | rfl <;> norm_num,
    by
      have h := (acquisition_reports_running_maximum sqrtApprox
        [stripedImage 2, stripedImage 3, stripedImage 1] [4, 9, 1]
        (List.Forall₂.cons (grabFocus_striped_level 2 2 rfl (by decide) 4 (by norm_num))
          (List.Forall₂.cons (grabFocus_striped_level 3 3 rfl (by decide) 9 (by norm_num))
            (List.Forall₂.cons (grabFocus_striped_level 1 1 rfl (by decide) 1 (by norm_num))
              List.Forall₂.nil)))
        (by
          intro l hl
          simp only [List.mem_cons, List.mem_singleton, List.not_mem_nil, or_false] at hl
          rcases hl with rfl | rfl | rfl <;> norm_num)).2.2.2.1
      simp only [List.length_cons, List.length_nil, List.map_cons, List.map_nil] at h
      rw [h]
      simp only [List.foldl_cons, List.foldl_nil, reportFocus, updateBest, List.nil_append,
        List.cons_append]
      norm_num⟩

/-- C2: `bestFocusSoFar` never decreases. The comparison-and-replace of lines
119-120 yields `max (previous bestFocusSoFar) c` for arbitrary `c`, which is
at least the previous value. For every session state, an iteration on a
delivered frame with focus level `c` ends with
`bestFocusSoFar = max (previous bestFocusSoFar) c`, which is at least the
previous value; an iteration on a failed frame ends with a value at least the
previous one; and over any number of iterations of the loop, on any results
of the frame source, the final value is at least the initial one. -/
theorem bestFocusSoFar_non_decreasing (sqrt : ℚ → ℚ) (s : Session) (image : CPylonImage)
    (c : ℚ) (hc : grabFocus sqrt image = .ok c) :
    (∀ b l : ℚ, updateBest b l = max b l ∧ b ≤ updateBest b l) ∧
    (∃ s', loopBody sqrt s (.Succeeded image) = .ok s' ∧
      s'.bestFocusSoFar = max s.bestFocusSoFar c ∧ s.bestFocusSoFar ≤ s'.bestFocusSoFar) ∧
    (∀ errorCode errorDescription, ∃ s',
      loopBody sqrt s (.Failed errorCode errorDescription) = .ok s' ∧
      s.bestFocusSoFar ≤ s'.bestFocusSoFar) ∧
    (∀ n source, s.bestFocusSoFar ≤ (grabLoop sqrt n source s).session.bestFocusSoFar) := by
  refine ⟨fun b l => ⟨updateBest_eq_max b l, by rw [updateBest_eq_max]; exact le_max_left b l⟩,
    ⟨_, loopBody_succeeded sqrt s image c hc, rfl, le_max_left _ _⟩, ?_, ?_⟩
  · intro errorCode errorDescription
    exact ⟨_, rfl, le_refl _⟩
  · intro n source
    exact grabLoop_best_le sqrt n source s

/-- Witness for C2: a session whose best value is 5 receives a uniform
600 × 600 frame, of focus level 0. -/
theorem bestFocusSoFar_non_decreasing_witness :
    grabFocus sqrtApprox (uniformImage 600 600 7) = .ok 0 ∧
    ∃ s', loopBody sqrtApprox ⟨5, []⟩ (.Succeeded (uniformImage 600 600 7)) = .ok s' ∧
      s'.bestFocusSoFar = max 5 0 ∧ (5 : ℚ) ≤ s'.bestFocusSoFar :=
  ⟨grabFocus_uniform sqrtApprox sqrtApprox_zero 600 600 7 (by decide) (by decide),
    (bestFocusSoFar_non_decreasing sqrtApprox ⟨5, []⟩ (uniformImage 600 600 7) 0
      (grabFocus_uniform sqrtApprox sqrtApprox_zero 600 600 7 (by decide) (by decide))).2.1⟩

/-- C3: a frame that is delivered but marked failed leaves `bestFocusSoFar`
unchanged, adds exactly one error report (code and description) and no focus
report, and the loop goes on with the next request. Over a whole session the
failed frames change neither the final `bestFocusSoFar`, nor the way the loop
is left, nor the focus reports. The results Delivered (`l1`), Failed,
Delivered (`l2`) give the session that the steps of lines 119-122 and 127
build from `l1`, the error and `l2`; on the levels 20 and 55 these steps build
the reports (20, 20), error report, (55, 55); these steps are what the loop
body does on a failed frame and on a delivered frame of the given level. -/
theorem failed_frame_keeps_best_and_continues (sqrt : ℚ → ℚ) (s : Session)
    (errorCode : Nat) (errorDescription : String) (f1 f2 : CPylonImage) (l1 l2 : ℚ)
    (h1 : grabFocus sqrt f1 = .ok l1) (h2 : grabFocus sqrt f2 = .ok l2) :
    loopBody sqrt s (.Failed errorCode errorDescription) =
      .ok ⟨s.bestFocusSoFar, s.cout ++ [.error errorCode errorDescription]⟩ ∧
    (∀ n rest, grabLoop sqrt (n + 1) (.Failed errorCode errorDescription :: rest) s =
      grabLoop sqrt n rest ⟨s.bestFocusSoFar, s.cout ++ [.error errorCode errorDescription]⟩) ∧
    (∀ source : List FrameResult,
      (grabLoop sqrt source.length source s).session.bestFocusSoFar
        = (grabLoop sqrt (source.filter fun r => !r.isFailed).length
            (source.filter fun r => !r.isFailed) s).session.bestFocusSoFar ∧
      (grabLoop sqrt source.length source s).exception
        = (grabLoop sqrt (source.filter fun r => !r.isFailed).length
            (source.filter fun r => !r.isFailed) s).exception ∧
      (grabLoop sqrt source.length source s).session.cout.filter Report.isFocus
        = (grabLoop sqrt (source.filter fun r => !r.isFailed).length
            (source.filter fun r => !r.isFailed) s).session.cout.filter Report.isFocus) ∧
    grabLoop sqrt 3 [.Delivered f1, .Failed errorCode errorDescription, .Delivered f2] ⟨0, []⟩
      = ⟨reportFocus (reportError (reportFocus ⟨0, []⟩ l1) errorCode errorDescription) l2,
          none⟩ ∧
    (grabLoop sqrt 3 [.Delivered f1, .Failed errorCode errorDescription, .Delivered f2]
      ⟨0, []⟩).session.bestFocusSoFar
      = (grabLoop sqrt 2 [.Delivered f1, .Delivered f2] ⟨0, []⟩).session.bestFocusSoFar ∧
    reportFocus (reportError (reportFocus ⟨0, []⟩ 20) errorCode errorDescription) 55
      = ⟨55, [.focus 20 20, .error errorCode errorDescription, .focus 55 55]⟩ ∧
    loopBody sqrt s (.Failed errorCode errorDescription)
      = .ok (reportError s errorCode errorDescription) ∧
    (∀ s0 image l, grabFocus sqrt image = .ok l →
      loopBody sqrt s0 (.Succeeded image) = .ok (reportFocus s0 l)) := by
  refine ⟨rfl, fun n rest => rfl, fun source => grabLoop_without_failed sqrt source s s rfl rfl,
    ?_, ?_, ?_, rfl, fun s0 image l hl => by simp only [loopBody, hl, reportFocus]⟩
  · rw [grabLoop_delivered sqrt 2 _ _ f1 l1 h1, grabLoop_failed,
      grabLoop_delivered sqrt 0 _ _ f2 l2 h2, grabLoop_zero]
    simp [reportFocus, reportError, updateBest_eq_max]
  · rw [grabLoop_delivered sqrt 2 _ _ f1 l1 h1, grabLoop_failed,
      grabLoop_delivered sqrt 0 _ _ f2 l2 h2, grabLoop_zero,
      grabLoop_delivered sqrt 1 _ _ f1 l1 h1, grabLoop_delivered sqrt 0 _ _ f2 l2 h2,
      grabLoop_zero]
  · simp only [reportFocus, reportError, updateBest, List.nil_append, List.cons_append,
      List.append_assoc]
    norm_num

/-- Witness for C3: a striped frame of focus level 4, a failed frame with code
7, a striped frame of focus level 9; the reports are (4, 4), error report,
(9, 9). -/
theorem failed_frame_keeps_best_and_continues_witness :
    grabFocus sqrtApprox (stripedImage 2) = .ok 4 ∧
    grabFocus sqrtApprox (stripedImage 3) = .ok 9 ∧
    grabLoop sqrtApprox 3
      [.Delivered (stripedImage 2), .Failed 7 "", .Delivered (stripedImage 3)] ⟨0, []⟩
      = ⟨⟨9, [.focus 4 4, .error 7 "", .focus 9 9]⟩, none⟩ :=
  ⟨grabFocus_striped_level 2 2 rfl (by decide) 4 (by norm_num),
    grabFocus_striped_level 3 3 rfl (by decide) 9 (by norm_num),
    by
      rw [(failed_frame_keeps_best_and_continues sqrtApprox ⟨0, []⟩ 7 ""
        (stripedImage 2) (stripedImage 3) 4 9
        (grabFocus_striped_level 2 2 rfl (by decide) 4 (by norm_num))
        (grabFocus_striped_level 3 3 rfl (by decide) 9 (by norm_num))).2.2.2.1]
      simp only [reportFocus, reportError, updateBest, List.nil_append, List.cons_append,
        List.append_assoc]
      norm_num⟩

/-- C4: when the request after `k - 1` delivered frames times out and the
budget `N` is at least `k`, the loop stops with the timeout exception: the
reports are exactly those of the `k - 1` frames (all focus reports,
unaltered), whatever the source had in store after the timeout is neither
requested nor reported, `bestFocusSoFar` is the running maximum of the `k - 1`
focus levels, and the program exits with code 1. -/
theorem timeout_stops_session (sqrt : ℚ → ℚ) (frames : List CPylonImage) (levels : List ℚ)
    (rest : List FrameResult) (N : Nat)
    (hlev : List.Forall₂ (fun f l => grabFocus sqrt f = .ok l) frames levels)
    (hN : frames.length + 1 ≤ N) :
    (grabLoop sqrt N (frames.map .Delivered ++ .TimedOut :: rest) ⟨0, []⟩).exception
      = some .TimeoutException ∧
    (grabLoop sqrt N (frames.map .Delivered ++ .TimedOut :: rest) ⟨0, []⟩).session.cout
      = (grabLoop sqrt frames.length (frames.map .Delivered) ⟨0, []⟩).session.cout ∧
    (grabLoop sqrt N (frames.map .Delivered ++ .TimedOut :: rest) ⟨0, []⟩).session.cout.length
      = frames.length ∧
    (∀ c ∈ (grabLoop sqrt N (frames.map .Delivered ++ .TimedOut :: rest) ⟨0, []⟩).session.cout,
      c.isFocus = true) ∧
    (grabLoop sqrt N (frames.map .Delivered ++ .TimedOut :: rest)
      ⟨0, []⟩).session.bestFocusSoFar = levels.foldl max 0 ∧
    (mainWith sqrt N (frames.map .Delivered ++ .TimedOut :: rest)).exitCode = 1 ∧
    (mainWith sqrt N (frames.map .Delivered ++ .TimedOut :: rest)).cout
      = (grabLoop sqrt frames.length (frames.map .Delivered) ⟨0, []⟩).session.cout := by
  obtain ⟨m, rfl⟩ : ∃ m, N = frames.length + (m + 1) := ⟨N - frames.length - 1, by omega⟩
  have hrun : grabLoop sqrt (frames.length + (m + 1))
      (frames.map .Delivered ++ .TimedOut :: rest) ⟨0, []⟩ =
      ⟨⟨levels.foldl max 0, runningReports 0 levels⟩, some .TimeoutException⟩ := by
    rw [grabLoop_run sqrt frames levels hlev, grabLoop_timedOut]
    simp
  simp only [mainWith, hrun, grabLoop_delivered_only sqrt frames levels hlev, List.nil_append]
  refine ⟨?_, ?_, ?_, ?_, ?_, ?_, ?_⟩
  any_goals trivial
  · rw [runningReports_length, hlev.length_eq]
  · exact runningReports_isFocus levels 0

/-- Witness for C4: one uniform frame, then a timeout, in a budget of 10. -/
theorem timeout_stops_session_witness :
    List.Forall₂ (fun f l => grabFocus sqrtApprox f = .ok l) [uniformImage 600 600 7] [0] ∧
    [uniformImage 600 600 7].length + 1 ≤ 10 ∧
    (grabLoop sqrtApprox 10 ([uniformImage 600 600 7].map .Delivered ++ .TimedOut :: [])
      ⟨0, []⟩).exception = some .TimeoutException :=
  ⟨List.Forall₂.cons (grabFocus_uniform sqrtApprox sqrtApprox_zero 600 600 7
      (by decide) (by decide)) List.Forall₂.nil,
    by decide,
    (timeout_stops_session sqrtApprox [uniformImage 600 600 7] [0] [] 10
      (List.Forall₂.cons (grabFocus_uniform sqrtApprox sqrtApprox_zero 600 600 7
        (by decide) (by decide)) List.Forall₂.nil)
      (by decide)).1⟩

/-- C5, as stated, fails: with a budget of 1 and the single non-timeout
result `Delivered` of a 640 × 480 frame, the loop does not end normally and
writes no report; the region of lines 111-114 is out of bounds and the
exception of `GetAoi` ends the session. -/
theorem budget_exhaustion_counterexample :
    ([FrameResult.Delivered (uniformImage 640 480 0)].length = 1 ∧
      ∀ r ∈ [FrameResult.Delivered (uniformImage 640 480 0)],
        r.isDelivered = true ∨ r.isFailed = true) ∧
    grabLoop sqrtApprox 1 [.Delivered (uniformImage 640 480 0)] ⟨0, []⟩
      = ⟨⟨0, []⟩, some .InvalidRegionError⟩ ∧
    ¬ ((grabLoop sqrtApprox 1 [.Delivered (uniformImage 640 480 0)] ⟨0, []⟩).exception = none ∧
      (grabLoop sqrtApprox 1 [.Delivered (uniformImage 640 480 0)]
        ⟨0, []⟩).session.cout.length = 1) := by
  have h : grabLoop sqrtApprox 1 [.Delivered (uniformImage 640 480 0)] ⟨0, []⟩
      = ⟨⟨0, []⟩, some .InvalidRegionError⟩ :=
    grabLoop_rejected sqrtApprox 0 [] ⟨0, []⟩ _ _
      (grabFocus_error sqrtApprox (uniformImage 640 480 0) (by decide))
  refine ⟨⟨rfl, ?_⟩, h, ?_⟩
  · intro r hr
    simp only [List.mem_singleton] at hr
    subst hr
    exact Or.inl rfl
  · rw [h]
    simp

/-- C5, amended: for every budget `N` and every sequence of `N` results of the
frame source, each a failed frame or a delivered frame of at least 599 × 599
pixels, the loop ends normally after exactly `N` iterations: it has written
exactly `N` reports, the `k`-th a focus report when the `k`-th result was
delivered and an error report when it was failed, and whatever the source has
in store beyond these `N` results is never requested. -/
theorem budget_exhaustion_normal_end (sqrt : ℚ → ℚ) (N : Nat) (source : List FrameResult)
    (hlen : source.length = N) (hok : ∀ r ∈ source, r.processable) :
    (grabLoop sqrt N source ⟨0, []⟩).exception = none ∧
    (grabLoop sqrt N source ⟨0, []⟩).session.cout.length = N ∧
    (grabLoop sqrt N source ⟨0, []⟩).session.cout.map Report.isFocus
      = source.map FrameResult.isDelivered ∧
    (∀ extra, grabLoop sqrt N (source ++ extra) ⟨0, []⟩ = grabLoop sqrt N source ⟨0, []⟩) := by
  subst hlen
  obtain ⟨s', hrun, hmap⟩ := grabLoop_processable sqrt source ⟨0, []⟩ hok
  have h0 := hrun []
  rw [List.append_nil] at h0
  simp only [List.map_nil, List.nil_append] at hmap
  refine ⟨by rw [h0], ?_, by rw [h0]; exact hmap, fun extra => by rw [h0, hrun extra]⟩
  rw [h0]
  have := congrArg List.length hmap
  simpa using this

/-- Witness for C5 amended: a budget of 2, a failed frame and a uniform
600 × 600 frame. -/
theorem budget_exhaustion_normal_end_witness :
    ([FrameResult.Failed 3 "", .Delivered (uniformImage 600 600 7)].length = 2 ∧
      ∀ r ∈ [FrameResult.Failed 3 "", .Delivered (uniformImage 600 600 7)], r.processable) ∧
    (grabLoop sqrtApprox 2 [.Failed 3 "", .Delivered (uniformImage 600 600 7)]
      ⟨0, []⟩).session.cout.length = 2 :=
  ⟨⟨rfl, by
      intro r hr
      simp only [List.mem_cons, List.mem_singleton, List.not_mem_nil, or_false] at hr
      rcases hr with rfl | rfl
      · exact True.intro
      · exact ⟨by decide, by decide⟩⟩,
    (budget_exhaustion_normal_end sqrtApprox 2
      [.Failed 3 "", .Delivered (uniformImage 600 600 7)] rfl (by
        intro r hr
        simp only [List.mem_cons, List.mem_singleton, List.not_mem_nil, or_false] at hr
        rcases hr with rfl | rfl
        · exact True.intro
        · exact ⟨by decide, by decide⟩)).2.1⟩

/-- C6: for every in-bounds region of positive width and height whose pixels
all have the same 8-bit intensity, and for every in-bounds 1 × 1 region,
`GetFocusLevel` returns exactly 0: the Laplacian response is 0 at every pixel
of the region, so its variance is 0. The square root is only required to map
0 to 0. -/
theorem GetFocusLevel_uniform_region_zero (sqrt : ℚ → ℚ) (h0 : sqrt 0 = 0)
    (img : CPylonImage) (offsetX offsetY rw rh : Int)
    (hb : roiInBounds img offsetX offsetY rw rh) (hw : 0 < rw) (hh : 0 < rh) :
    (∀ v : Fin 256,
      (∀ x y, x < rw.toNat → y < rh.toNat →
        img.pixel (offsetX.toNat + x) (offsetY.toNat + y) = v) →
      GetFocusLevel sqrt img offsetX offsetY rw rh = .ok 0 ∧
      ∀ roiImage, img.GetAoi offsetX offsetY rw rh = .ok roiImage →
        ∀ y x, y < roiImage.height → x < roiImage.width →
          (Laplacian (matOfImage (Convert roiImage))).data y x = 0) ∧
    (rw = 1 → rh = 1 → GetFocusLevel sqrt img offsetX offsetY rw rh = .ok 0) := by
  have hv : roiValid img offsetX offsetY rw rh := ⟨hw, hh, hb⟩
  refine ⟨?_, ?_⟩
  · intro v hu
    refine ⟨?_, ?_⟩
    · have := GetFocusLevel_uniform sqrt img offsetX offsetY rw rh v hv hu
      rw [h0, mul_zero] at this
      exact this
    · intro roiImage hroi y x hy hx
      simp only [CPylonImage.GetAoi, if_pos hv, Except.ok.injEq] at hroi
      subst hroi
      apply Laplacian_uniform _ v.val _ y x hy hx
      intro y x hy hx
      simp only [matOfImage, Convert] at hy hx ⊢
      rw [hu x y hx hy]
  · intro hw1 hh1
    subst hw1 hh1
    have := GetFocusLevel_uniform sqrt img offsetX offsetY 1 1
      (img.pixel offsetX.toNat offsetY.toNat) hv (by
        intro x y hx hy
        have hx0 : x = 0 := by simpa using hx
        have hy0 : y = 0 := by simpa using hy
        subst hx0 hy0
        rfl)
    rw [h0, mul_zero] at this
    exact this

/-- Witness for C6: the 2 × 2 region at (1, 1) of a uniform 4 × 4 frame. -/
theorem GetFocusLevel_uniform_region_zero_witness :
    sqrtApprox 0 = 0 ∧ roiInBounds (uniformImage 4 4 9) 1 1 2 2 ∧
    GetFocusLevel sqrtApprox (uniformImage 4 4 9) 1 1 2 2 = .ok 0 :=
  ⟨sqrtApprox_zero, by decide,
    ((GetFocusLevel_uniform_region_zero sqrtApprox sqrtApprox_zero
      (uniformImage 4 4 9) 1 1 2 2 (by decide) (by decide) (by decide)).1 9
      (fun _ _ _ _ => rfl)).1⟩

/-- C7, as stated, fails: on a 4 × 4 frame the region with offsets (4, 4),
width 0 and height 0 satisfies the bounds invariant and ends exactly on the
right and bottom edges of the frame, with non-negative offsets, yet region
extraction fails with `InvalidRegionError`: a zero-sized region is a contract
violation of the Region Extractor. -/
theorem region_extraction_counterexample :
    roiInBounds (uniformImage 4 4 9) 4 4 0 0 ∧
    ((0 : Int) ≤ 4 ∧ (4 : Int) + 0 = ((uniformImage 4 4 9).width : Int) ∧
      (4 : Int) + 0 = ((uniformImage 4 4 9).height : Int)) ∧
    GetFocusLevel sqrtApprox (uniformImage 4 4 9) 4 4 0 0 = .error .InvalidRegionError ∧
    ¬ (GetFocusLevel sqrtApprox (uniformImage 4 4 9) 4 4 0 0 = .error .InvalidRegionError ↔
      ¬ roiInBounds (uniformImage 4 4 9) 4 4 0 0) := by
  have hb : roiInBounds (uniformImage 4 4 9) 4 4 0 0 := by decide
  have he : GetFocusLevel sqrtApprox (uniformImage 4 4 9) 4 4 0 0
      = .error .InvalidRegionError :=
    GetFocusLevel_error sqrtApprox (uniformImage 4 4 9) 4 4 0 0 (by decide)
  exact ⟨hb, ⟨by decide, rfl, rfl⟩, he, fun h => (h.1 he) hb⟩

/-- C7, amended: region extraction in `GetFocusLevel` fails with
`InvalidRegionError` exactly when the region violates the bounds invariant or
its width or height is not positive; nothing is clamped: an extracted region
has exactly the requested width and height and holds the frame's pixels at
the requested positions. A region of positive size that ends exactly on the
right and bottom edges of the frame, with non-negative offsets, succeeds; a
region with `offsetX + width = frame.width + 1` fails. -/
theorem region_extraction_fails_iff_rejected (sqrt : ℚ → ℚ) (img : CPylonImage)
    (offsetX offsetY rw rh : Int) :
    (GetFocusLevel sqrt img offsetX offsetY rw rh = .error .InvalidRegionError ↔
      ¬ roiInBounds img offsetX offsetY rw rh ∨ rw ≤ 0 ∨ rh ≤ 0) ∧
    (0 < rw → 0 < rh →
      (GetFocusLevel sqrt img offsetX offsetY rw rh = .error .InvalidRegionError ↔
        ¬ roiInBounds img offsetX offsetY rw rh)) ∧
    (∀ roiImage, img.GetAoi offsetX offsetY rw rh = .ok roiImage →
      (roiImage.width : Int) = rw ∧ (roiImage.height : Int) = rh ∧
      ∀ x y n m : Nat, (n : Int) = offsetX + x → (m : Int) = offsetY + y →
        roiImage.pixel x y = img.pixel n m) ∧
    (0 < rw → 0 < rh → 0 ≤ offsetX → 0 ≤ offsetY → offsetX + rw = (img.width : Int) →
      offsetY + rh = (img.height : Int) →
      ∃ l, GetFocusLevel sqrt img offsetX offsetY rw rh = .ok l) ∧
    (offsetX + rw = (img.width : Int) + 1 →
      GetFocusLevel sqrt img offsetX offsetY rw rh = .error .InvalidRegionError) := by
  have hiff : GetFocusLevel sqrt img offsetX offsetY rw rh = .error .InvalidRegionError ↔
      ¬ roiValid img offsetX offsetY rw rh := by
    refine ⟨?_, GetFocusLevel_error sqrt img offsetX offsetY rw rh⟩
    intro herr hv
    obtain ⟨l, hl⟩ := GetFocusLevel_ok sqrt img offsetX offsetY rw rh hv
    rw [hl] at herr
    exact Except.noConfusion herr
  refine ⟨?_, ?_, ?_, ?_, ?_⟩
  · rw [hiff]
    unfold roiValid
    constructor
    · intro h
      by_cases hw : 0 < rw
      · by_cases hh : 0 < rh
        · exact Or.inl (fun hb => h ⟨hw, hh, hb⟩)
        · exact Or.inr (Or.inr (by omega))
      · exact Or.inr (Or.inl (by omega))
    · rintro (h | h | h) hv
      · exact h hv.2.2
      · have := hv.1
        omega
      · have := hv.2.1
        omega
  · intro hw hh
    rw [hiff]
    exact ⟨fun h hb => h ⟨hw, hh, hb⟩, fun h hv => h hv.2.2⟩
  · intro roiImage hroi
    by_cases hv : roiValid img offsetX offsetY rw rh
    · simp only [CPylonImage.GetAoi, if_pos hv, Except.ok.injEq] at hroi
      subst hroi
      have hw := hv.1
      have hh := hv.2.1
      have hx := hv.2.2.1
      have hy := hv.2.2.2.1
      refine ⟨by simp only []; omega, by simp only []; omega, ?_⟩
      intro x y n m hn hm
      have e1 : offsetX.toNat + x = n := by omega
      have e2 : offsetY.toNat + y = m := by omega
      simp only [e1, e2]
    · simp only [CPylonImage.GetAoi, if_neg hv] at hroi
      exact Except.noConfusion hroi
  · intro hw hh hx hy hxw hyh
    exact GetFocusLevel_ok sqrt img offsetX offsetY rw rh
      ⟨hw, hh, hx, hy, le_of_eq hxw, le_of_eq hyh⟩
  · intro hxw
    apply GetFocusLevel_error
    intro hv
    have := hv.2.2.2.2.1
    omega

/-- Witness for C7 amended: on a 4 × 4 frame the 2 × 2 region at (2, 2), which
ends on both edges, is extracted and scored, and the 2 × 2 region at (3, 2),
one pixel beyond the right edge, is rejected. -/
theorem region_extraction_fails_iff_rejected_witness :
    (∃ l, GetFocusLevel sqrtApprox (uniformImage 4 4 9) 2 2 2 2 = .ok l) ∧
    GetFocusLevel sqrtApprox (uniformImage 4 4 9) 3 2 2 2 = .error .InvalidRegionError :=
  ⟨(region_extraction_fails_iff_rejected sqrtApprox (uniformImage 4 4 9) 2 2 2 2).2.2.2.1
      (by decide) (by decide) (by decide) (by decide) rfl rfl,
    (region_extraction_fails_iff_rejected sqrtApprox (uniformImage 4 4 9) 3 2 2 2).2.2.2.2
      rfl⟩

/-- C8, as stated, fails: for a delivered 1000 × 1000 frame, which the loop
scores, the region passed to `GetFocusLevel` has offsets (500, 500); the margin
left of it is 500 pixels and the margin right of it 200, and likewise above
and below, so the margins differ by 300 pixels, not by at most one. -/
theorem roi_centred_counterexample :
    grabFocus sqrtApprox (uniformImage 1000 1000 0) = .ok 0 ∧
    roiOffsetX (uniformImage 1000 1000 0) = 500 ∧
    roiOffsetY (uniformImage 1000 1000 0) = 500 ∧
    ((uniformImage 1000 1000 0).width : Int)
      - (roiOffsetX (uniformImage 1000 1000 0) + roiWidth) = 200 ∧
    ((uniformImage 1000 1000 0).height : Int)
      - (roiOffsetY (uniformImage 1000 1000 0) + roiHeight) = 200 ∧
    ¬ ((roiOffsetX (uniformImage 1000 1000 0)
        - (((uniformImage 1000 1000 0).width : Int)
          - (roiOffsetX (uniformImage 1000 1000 0) + roiWidth))).natAbs ≤ 1 ∧
      (roiOffsetY (uniformImage 1000 1000 0)
        - (((uniformImage 1000 1000 0).height : Int)
          - (roiOffsetY (uniformImage 1000 1000 0) + roiHeight))).natAbs ≤ 1) := by
  refine ⟨grabFocus_uniform sqrtApprox sqrtApprox_zero 1000 1000 0 (by decide) (by decide),
    by decide, by decide, by decide, by decide, by decide⟩

/-- C8, amended: for every delivered frame of width `w` and height `h`, the
300 × 300 region that the loop passes to `GetFocusLevel` has its top-left
corner, not its centre, at the centre of the frame: `offsetX = w div 2` and
`offsetY = h div 2`. The margin left of the region exceeds the margin right
of it by `300 - w mod 2` pixels, and the margin above it exceeds the margin
below it by `300 - h mod 2` pixels. -/
theorem roi_corner_at_frame_centre (sqrt : ℚ → ℚ) (image : CPylonImage) :
    grabFocus sqrt image =
      GetFocusLevel sqrt image (roiOffsetX image) (roiOffsetY image) roiWidth roiHeight ∧
    roiOffsetX image = ((image.width / 2 : Nat) : Int) ∧
    roiOffsetY image = ((image.height / 2 : Nat) : Int) ∧
    roiWidth = 300 ∧ roiHeight = 300 ∧
    roiOffsetX image - ((image.width : Int) - (roiOffsetX image + roiWidth))
      = 300 - ((image.width % 2 : Nat) : Int) ∧
    roiOffsetY image - ((image.height : Int) - (roiOffsetY image + roiHeight))
      = 300 - ((image.height % 2 : Nat) : Int) := by
  refine ⟨rfl, rfl, rfl, rfl, rfl, ?_, ?_⟩
  · simp only [roiOffsetX, roiWidth]
    omega
  · simp only [roiOffsetY, roiHeight]
    omega

/-- C9: the exit code of the program is 1 exactly when an exception ended the
session and 0 exactly when none did. A session in which every request within
the budget returned a failed frame or a delivered frame that could be scored
exits with 0; in particular failed frames alone never make the exit code 1. -/
theorem exit_code_one_iff_exception (sqrt : ℚ → ℚ) (N : Nat) (source : List FrameResult) :
    ((mainWith sqrt N source).exitCode = 1 ↔
      (grabLoop sqrt N source ⟨0, []⟩).exception ≠ none) ∧
    ((mainWith sqrt N source).exitCode = 0 ↔
      (grabLoop sqrt N source ⟨0, []⟩).exception = none) ∧
    ((main sqrt source).exitCode = 1 ↔
      (grabLoop sqrt c_countOfImagesToGrab source ⟨0, []⟩).exception ≠ none) ∧
    (N ≤ source.length → (∀ r ∈ source.take N, r.processable) →
      (mainWith sqrt N source).exitCode = 0) ∧
    (N ≤ source.length → (∀ r ∈ source, r.isFailed = true) →
      (mainWith sqrt N source).exitCode = 0) := by
  have hcode : ∀ n, ((mainWith sqrt n source).exitCode = 1 ↔
        (grabLoop sqrt n source ⟨0, []⟩).exception ≠ none) ∧
      ((mainWith sqrt n source).exitCode = 0 ↔
        (grabLoop sqrt n source ⟨0, []⟩).exception = none) := by
    intro n
    cases h : (grabLoop sqrt n source ⟨0, []⟩).exception <;> simp [mainWith, h]
  have hnormal : N ≤ source.length → (∀ r ∈ source.take N, r.processable) →
      (mainWith sqrt N source).exitCode = 0 := by
    intro hN hok
    obtain ⟨s', hrun, _⟩ := grabLoop_processable sqrt (source.take N) ⟨0, []⟩ hok
    have h := hrun (source.drop N)
    rw [List.take_append_drop, List.length_take, Nat.min_eq_left hN] at h
    exact (hcode N).2.2 (by rw [h])
  refine ⟨(hcode N).1, (hcode N).2, (hcode c_countOfImagesToGrab).1, hnormal, ?_⟩
  intro hN hfail
  apply hnormal hN
  intro r hr
  have := hfail r (List.mem_of_mem_take hr)
  cases r with
  | TimedOut => simp [FrameResult.isFailed] at this
  | Delivered image => simp [FrameResult.isFailed] at this
  | Failed errorCode errorDescription => exact True.intro

/-- C10: for a delivered frame of width `w` and height `h` the loop passes the
region `(w div 2, h div 2, 300, 300)` to `GetFocusLevel`; this region
satisfies the bounds invariant exactly when `w ≥ 599` and `h ≥ 599`. For every
smaller frame the iteration that receives it leaves the loop with the
exception of the region extraction and without a report; when only failed
frames came before it, the program exits with code 1 and has written no
focus report. -/
theorem loop_roi_in_bounds_iff (sqrt : ℚ → ℚ) (image : CPylonImage) :
    grabFocus sqrt image = GetFocusLevel sqrt image
      ((image.width / 2 : Nat) : Int) ((image.height / 2 : Nat) : Int) 300 300 ∧
    (roiInBounds image ((image.width / 2 : Nat) : Int) ((image.height / 2 : Nat) : Int) 300 300
      ↔ 599 ≤ image.width ∧ 599 ≤ image.height) ∧
    (¬ (599 ≤ image.width ∧ 599 ≤ image.height) →
      (∀ n rest s, grabLoop sqrt (n + 1) (.Delivered image :: rest) s
        = ⟨s, some .InvalidRegionError⟩) ∧
      (∀ N fails rest, (∀ r ∈ fails, r.isFailed = true) → fails.length < N →
        (mainWith sqrt N (fails ++ .Delivered image :: rest)).exitCode = 1 ∧
        ∀ c ∈ (mainWith sqrt N (fails ++ .Delivered image :: rest)).cout,
          c.isFocus = false)) := by
  refine ⟨rfl, grabRoi_inBounds_iff image, ?_⟩
  intro hsmall
  have hstep : ∀ n rest s, grabLoop sqrt (n + 1) (.Delivered image :: rest) s
      = ⟨s, some .InvalidRegionError⟩ :=
    fun n rest s => grabLoop_rejected sqrt n rest s image _ (grabFocus_error sqrt image hsmall)
  refine ⟨hstep, ?_⟩
  intro N fails rest hfails hN
  obtain ⟨m, rfl⟩ : ∃ m, N = fails.length + (m + 1) := ⟨N - fails.length - 1, by omega⟩
  obtain ⟨errs, herrs, hrun⟩ :=
    grabLoop_failed_run sqrt fails (m + 1) (.Delivered image :: rest) ⟨0, []⟩ hfails
  rw [hstep] at hrun
  simp only [mainWith, hrun, List.nil_append]
  exact ⟨trivial, herrs⟩

end FocusHelper
